import Mathlib

/-!
Shallow embedding of the core of the cloudformation-guard repository,
centred on the path-aware value model and query resolver of
`src/cfn-guard/src/rules/path_value.rs`, together with the legacy
query resolver of `src/guard/src/rules/exprs/query.rs`.

Rust types are translated as follows: `String` stays `String`,
`i32`/`i64` become `Int` (with explicit range side conditions where the
width matters), `usize` becomes `Nat`, `Vec<T>` becomes `List T`,
`indexmap::IndexMap<String, T>` becomes an insertion-ordered association
list `List (String × T)` (an `IndexMap` never holds a duplicate key),
and `Result<T, Error>` becomes `Except Error T`.  `f64` is modelled by
`F64` below: a non-NaN payload drawn from `ℚ` (finite doubles embed in
`ℚ`, and `partial_cmp` is a total order on the non-NaN doubles) plus a
separate `nan` point on which `partial_cmp` returns `none`.

The error messages produced with `format!` in the source interpolate
debug renderings of values and queries; the embedding keeps only the
static descriptive text of each message, since no behaviour of the code
depends on the interpolated parts.
-/

namespace CfnGuard

/-- Rust `struct Path(String)` from path_value.rs: an absolute pointer
into the document, tokens joined by `/`. -/
structure Path where
  s : String
deriving Repr, DecidableEq

/-- Rust `Path::root()`: the empty path. -/
def Path.root : Path := ⟨""⟩

/-- Rust `Path::extend_str`: `copy.push('/'); copy.push_str(part)` —
the parent path followed by the separator and the token. -/
def Path.extend_str (self : Path) (part : String) : Path :=
  ⟨self.s ++ "/" ++ part⟩

/-- Rust `Path::extend_string` (delegates to `extend_str`). -/
def Path.extend_string (self : Path) (part : String) : Path :=
  self.extend_str part

/-- Rust `Path::extend_usize`: extend with the decimal rendering of the
index. -/
def Path.extend_usize (self : Path) (part : Nat) : Path :=
  self.extend_string (toString part)

/-- Three-valued evaluation status (`Status` in the crate, referenced by
path_value.rs; the enum itself lives in rules/mod.rs outside src/, its
three variants PASS, FAIL and SKIP are fixed by the spec). -/
inductive Status where
  | pass
  | fail
  | skip
deriving Repr, DecidableEq

/-- The error kinds of rules/errors.rs that path_value.rs constructs.
The Rust `Error(ErrorKind)` wrapper is flattened away; the `String`
payload keeps the static part of each `format!` message. -/
inductive Error where
  | retrievalError (msg : String)
  | incompatibleError (msg : String)
  | notComparable (msg : String)
deriving Repr, DecidableEq

/-- Model of `f64`: `finite q` stands for a non-NaN double (these are
totally ordered by `partial_cmp`, like `ℚ`), `nan` for a NaN, on which
every `partial_cmp` is `None`. -/
inductive F64 where
  | finite (q : ℚ)
  | nan
deriving Repr, DecidableEq

/-- Rust `f64::partial_cmp`: `None` exactly when either side is NaN. -/
def F64.partialCmp : F64 → F64 → Option Ordering
  | .finite a, .finite b => some (compare a b)
  | _, _ => none

/-- Rust `RangeType<T>` from rules/values.rs (referenced by
path_value.rs): a range with an inclusive or exclusive bound on each
side. -/
structure RangeType (α : Type) where
  lower : α
  upper : α
  lowerInclusive : Bool
  upperInclusive : Bool
deriving Repr, DecidableEq

/-- Rust `enum PathAwareValue` of path_value.rs.  Every node carries its
absolute `Path`.  The `(Path, T)` tuple payloads are flattened into
separate constructor arguments, and the `MapValue { keys, values }`
struct of the `Map` variant is flattened into the two arguments
`keys` (the map keys re-expressed as string nodes, in insertion order)
and `values` (the insertion-ordered key/value association list). -/
inductive PathAwareValue where
  | null (p : Path)
  | string (p : Path) (s : String)
  | regex (p : Path) (r : String)
  | bool (p : Path) (b : Bool)
  | int (p : Path) (i : Int)
  | float (p : Path) (f : F64)
  | char (p : Path) (c : Char)
  | list (p : Path) (elements : List PathAwareValue)
  | map (p : Path) (keys : List PathAwareValue) (values : List (String × PathAwareValue))
  | rangeInt (p : Path) (r : RangeType Int)
  | rangeFloat (p : Path) (r : RangeType F64)
  | rangeChar (p : Path) (r : RangeType Char)
deriving Repr

/-- Rust `PathAwareValue::is_list`. -/
def PathAwareValue.is_list : PathAwareValue → Bool
  | .list _ _ => true
  | _ => false

/-- Rust `PathAwareValue::is_map`. -/
def PathAwareValue.is_map : PathAwareValue → Bool
  | .map _ _ _ => true
  | _ => false

/-- Rust `PathAwareValue::is_scalar`, exactly as written in the source:
`!self.is_list() || !self.is_map()`. -/
def PathAwareValue.is_scalar (self : PathAwareValue) : Bool :=
  !self.is_list || !self.is_map

/-- Rust `PathAwareValue::self_path` (the first component of
`self_value`): the path stored at the node itself. -/
def PathAwareValue.self_path : PathAwareValue → Path
  | .null p => p
  | .string p _ => p
  | .regex p _ => p
  | .bool p _ => p
  | .int p _ => p
  | .float p _ => p
  | .char p _ => p
  | .list p _ => p
  | .map p _ _ => p
  | .rangeInt p _ => p
  | .rangeFloat p _ => p
  | .rangeChar p _ => p

/-- IndexMap lookup `map.values.get(key)`: first (and only) binding of
the key in the insertion-ordered association list. -/
def lookupKey (key : String) : List (String × PathAwareValue) → Option PathAwareValue
  | [] => none
  | (k, v) :: rest => if k = key then some v else lookupKey key rest

/-- Rust `compare_values` of path_value.rs: scalar comparison.  Note
that the `Bool` and `Regex` arms of the source bind the whole payload
with a wildcard pattern and return `Ordering::Equal` without looking at
it, and that mixed-kind pairs (the final catch-all arm) are
`NotComparable`. -/
def compare_values : PathAwareValue → PathAwareValue → Except Error Ordering
  | .null _, .null _ => .ok .eq
  | .int _ i, .int _ o => .ok (compare i o)
  | .string _ s, .string _ o => .ok (compare s o)
  | .float _ f, .float _ s =>
    match F64.partialCmp f s with
    | some o => .ok o
    | none => .error (.notComparable "Float values are not comparable")
  | .char _ f, .char _ s => .ok (compare f s)
  | .bool _ _, .bool _ _ => .ok .eq
  | .regex _ _, .regex _ _ => .ok .eq
  | _, _ => .error (.notComparable "PathAwareValues are not comparable")

/-- Rust `compare_lt`: true exactly on `Ordering::Less`, errors pass
through. -/
def compare_lt (first other : PathAwareValue) : Except Error Bool :=
  match compare_values first other with
  | .ok o => match o with
    | .eq | .gt => .ok false
    | .lt => .ok true
  | .error e => .error e

/-- Rust `compare_le`: false exactly on `Ordering::Greater`. -/
def compare_le (first other : PathAwareValue) : Except Error Bool :=
  match compare_values first other with
  | .ok o => match o with
    | .gt => .ok false
    | .eq | .lt => .ok true
  | .error e => .error e

/-- Rust `compare_gt`: true exactly on `Ordering::Greater`. -/
def compare_gt (first other : PathAwareValue) : Except Error Bool :=
  match compare_values first other with
  | .ok o => match o with
    | .gt => .ok true
    | .lt | .eq => .ok false
  | .error e => .error e

/-- Rust `compare_ge`: false exactly on `Ordering::Less`. -/
def compare_ge (first other : PathAwareValue) : Except Error Bool :=
  match compare_values first other with
  | .ok o => match o with
    | .gt | .eq => .ok true
    | .lt => .ok false
  | .error e => .error e

/-- Rust `str::parse::<i32>`: an optional sign followed by one or more
ASCII digits, value within the `i32` range; anything else is `Err`. -/
def parseI32 (s : String) : Option Int :=
  let chars := s.data
  let signed : Int × List Char :=
    match chars with
    | '+' :: rest => (1, rest)
    | '-' :: rest => (-1, rest)
    | rest => (1, rest)
  match signed with
  | (sign, digits) =>
    if digits.isEmpty then none
    else if digits.all Char.isDigit then
      let mag : Nat := digits.foldl (fun acc c => acc * 10 + (c.toNat - '0'.toNat)) 0
      let v : Int := sign * mag
      if -(2 ^ 31) ≤ v ∧ v ≤ 2 ^ 31 - 1 then some v else none
    else none

/-- Rust `PathAwareValue::retrieve_index`.  The source computes
`let check = if index >= 0 { index } else { -index } as usize;` in
`i32` arithmetic: for every `index` other than `i32::MIN` this is the
absolute value, while for `index = i32::MIN = -2^31` the negation
overflows (a panic in debug builds; in release builds it wraps back to
`-2^31` and the `usize` cast sign-extends it to `2^64 - 2^31`).  The
embedding uses the release-build semantics. -/
def retrieve_index (index : Int) (list : List PathAwareValue) : Except Error PathAwareValue :=
  let check : Nat :=
    if 0 ≤ index then index.toNat
    else if index = -(2 ^ 31) then 2 ^ 64 - 2 ^ 31
    else (-index).toNat
  if h : check < list.length then
    .ok (list.get ⟨check, h⟩)
  else
    .error (.retrievalError "Array Index out of bounds")

/-- The conjunction attached to a `Filter` query part.  Modelled from
the spec: the type `Conjunctions<GuardClause>` and its `Evaluate`
implementation live in rules/exprs.rs and rules/evaluate.rs, which are
not under src/; per the spec (section 4.4) evaluating a conjunction
against a candidate value yields a three-valued status (or an error),
so a conjunction is embedded as that evaluation function. -/
def Conjunctions : Type := PathAwareValue → Except Error Status

/-- Rust `enum QueryPart` (rules/exprs.rs, not under src/).  Modelled
from the spec, section 3, restricted to the six variants that the
exhaustive `match` in `QueryResolver::select` of path_value.rs proves
the type to have: `Key(name)`, `Index(i32)`, `AllIndices`, `AllValues`,
`MapKeys` and `Filter(conjunctions)`. -/
inductive QueryPart where
  | key (name : String)
  | index (i : Int)
  | allIndices
  | allValues
  | mapKeys
  | filter (conjunctions : Conjunctions)

/-- The element loop shared by `PathAwareValue::accumulate` and the
`AllValues`-on-map branch of `select` in path_value.rs: run the given
selection on each element in order; `Ok` results are concatenated, a
`RetrievalError` aborts when `all` is true and is swallowed (the
element contributes nothing) when `all` is false, and any other error
aborts unconditionally. -/
def foldSelect (all : Bool) (sel : PathAwareValue → Except Error (List PathAwareValue)) :
    List PathAwareValue → Except Error (List PathAwareValue)
  | [] => .ok []
  | x :: xs =>
    match sel x with
    | .ok res =>
      match foldSelect all sel xs with
      | .ok rest => .ok (res ++ rest)
      | .error e => .error e
    | .error (.retrievalError e) =>
      if all then .error (.retrievalError e) else foldSelect all sel xs
    | .error e => .error e

/-- The element loop of the `Filter`-on-list branch of `select` in
path_value.rs: evaluate the conjunction against each element; on PASS
run the continuation selection on the element (any error aborting the
whole walk, via the `?` in the source), on any other status skip the
element, and abort on an evaluation error (again the `?` in the
source).  The `AutoReport` tracking frames of the source only record
statuses into the reporting context and do not affect the returned
selection; they are omitted. -/
def foldFilter (conj : Conjunctions)
    (sel : PathAwareValue → Except Error (List PathAwareValue)) :
    List PathAwareValue → Except Error (List PathAwareValue)
  | [] => .ok []
  | x :: xs =>
    match conj x with
    | .ok .pass =>
      match sel x with
      | .ok res =>
        match foldFilter conj sel xs with
        | .ok rest => .ok (res ++ rest)
        | .error e => .error e
      | .error e => .error e
    | .ok _ => foldFilter conj sel xs
    | .error e => .error e

mutual

/-- Rust `QueryResolver::select for PathAwareValue` of path_value.rs.
The `resolver: &dyn EvaluationContext` argument of the source is only
used for tracking/reporting (and forwarded to conjunction evaluation,
which the embedding carries inside the `filter` part itself), so it is
not a parameter here.  Branch by branch:
empty query returns the value itself; `Key` first tries to parse the
key as an `i32` (treating the value as a list to index on success, a
map to look the key up in on failure); `MapKeys` accumulates over the
keys list of a map; `Index` indexes a list; `AllIndices` accumulates
over the elements of a list; `AllValues` accumulates over a list or
loops over the values of a map; `Filter` filters the elements of a
list (skipping one immediately following `AllIndices` part in the
continuation) or treats a map as a single candidate. -/
def select (all : Bool) : (query : List QueryPart) → PathAwareValue → Except Error (List PathAwareValue)
  | [], v => .ok [v]
  | .key key :: rest, v =>
    match parseI32 key with
    | some index =>
      match v with
      | .list _ l =>
        match retrieve_index index l with
        | .ok next => select all rest next
        | .error e => .error e
      | _ => .error (.incompatibleError "Attempting to retrieve array index, Type was not an array")
    | none =>
      match v with
      | .map _ _keys values =>
        match lookupKey key values with
        | some next => select all rest next
        | none => .error (.retrievalError "Could not locate key inside object/map")
      | _ => .error (.incompatibleError "Attempting to retrieve key/index, Type was not an object/map/array")
  | .mapKeys :: rest, v =>
    match v with
    | .map _ keys _values => accumulate all rest keys
    | _ => .error (.incompatibleError "Attempting to retrieve KEYS for type that is not an object/map")
  | .index array_idx :: rest, v =>
    match v with
    | .list _ vec =>
      match retrieve_index array_idx vec with
      | .ok next => select all rest next
      | .error e => .error e
    | _ => .error (.incompatibleError "Attempting to retrieve array index, Type was not an array")
  | .allIndices :: rest, v =>
    match v with
    | .list _ elements => accumulate all rest elements
    | _ => .error (.incompatibleError "Attempting to retrieve ALL INDICES for type that is not an array")
  | .allValues :: rest, v =>
    match v with
    | .list _ elements => accumulate all rest elements
    | .map _ _keys values =>
      foldSelect all (fun each => select all rest each) (values.map Prod.snd)
    | _ => .error (.incompatibleError "Attempting to retrieve ALL VALUES for type that is not an object/map/list")
  | .filter conjunctions :: rest, v =>
    match v with
    | .list _ vec =>
      -- the source continues with query[2..] when query[1] is a
      -- redundant AllIndices, and with query[1..] otherwise
      match rest with
      | .allIndices :: restTail =>
        foldFilter conjunctions (fun each => select all restTail each) vec
      | restOther =>
        foldFilter conjunctions (fun each => select all restOther each) vec
    | .map p keys values =>
      match conjunctions (.map p keys values) with
      | .ok .pass => select all rest (.map p keys values)
      | .ok _ => .ok []
      | .error e => .error e
    | _ => .error (.incompatibleError "Attempting to filter, Type was not an array/selected query")
termination_by query _ => query.length
decreasing_by all_goals simp +arith

/-- Rust `PathAwareValue::accumulate` of path_value.rs, exactly as in
the source: it receives the query remainder that `select` already
stripped of its fan-out head, pushes the elements themselves when that
remainder is empty, and otherwise selects each element with
`query[1..]` — dropping one further part of the remaining query. -/
def accumulate (all : Bool) (query : List QueryPart) (elements : List PathAwareValue) :
    Except Error (List PathAwareValue) :=
  match query with
  | [] => .ok elements
  | _ :: queryTail => foldSelect all (fun each => select all queryTail each) elements
termination_by query.length
decreasing_by all_goals simp +arith

end

mutual

/-- Rust `impl PartialEq for PathAwareValue` of path_value.rs:
map against map compares the two `MapValue`s with the derived
`PartialEq` (keys vector elementwise, then the `IndexMap` of values:
equal lengths and, for every binding of the left map, an equal value
bound to the same key in the right map), list against list compares the
vectors elementwise, and every other pair is equal exactly when
`compare_values` returns `Ordering::Equal`. -/
def pvEq : PathAwareValue → PathAwareValue → Bool
  | .map _ keys values, .map _ keys2 values2 =>
    pvListEq keys keys2 && ((values.length == values2.length) && pvMapSub values values2)
  | .list _ l, .list _ l2 => pvListEq l l2
  | v, w =>
    match compare_values v w with
    | .ok .eq => true
    | _ => false
termination_by v _ => sizeOf v

/-- Rust `Vec<PathAwareValue>::eq`: equal lengths, elementwise
`PartialEq`. -/
def pvListEq : List PathAwareValue → List PathAwareValue → Bool
  | [], [] => true
  | x :: xs, y :: ys => pvEq x y && pvListEq xs ys
  | _, _ => false
termination_by l _ => sizeOf l

/-- The per-binding half of `IndexMap::eq`: every binding of the left
map has an equal value bound to the same key in the right map. -/
def pvMapSub : List (String × PathAwareValue) → List (String × PathAwareValue) → Bool
  | [], _ => true
  | (k, v) :: rest, other =>
    (match lookupKey k other with
     | some w => pvEq v w
     | none => false) && pvMapSub rest other
termination_by m _ => sizeOf m

end

mutual

/-- Replace the path stored at every node of the tree by the root path,
leaving structure and scalar payloads untouched (used to state that
`PartialEq` is insensitive to the stored paths). -/
def stripPath : PathAwareValue → PathAwareValue
  | .null _ => .null Path.root
  | .string _ s => .string Path.root s
  | .regex _ r => .regex Path.root r
  | .bool _ b => .bool Path.root b
  | .int _ i => .int Path.root i
  | .float _ f => .float Path.root f
  | .char _ c => .char Path.root c
  | .list _ l => .list Path.root (stripPathList l)
  | .map _ keys values => .map Path.root (stripPathList keys) (stripPathEntries values)
  | .rangeInt _ r => .rangeInt Path.root r
  | .rangeFloat _ r => .rangeFloat Path.root r
  | .rangeChar _ r => .rangeChar Path.root r

/-- Path erasure on an element list. -/
def stripPathList : List PathAwareValue → List PathAwareValue
  | [] => []
  | x :: xs => stripPath x :: stripPathList xs

/-- Path erasure on a key/value association list. -/
def stripPathEntries : List (String × PathAwareValue) → List (String × PathAwareValue)
  | [] => []
  | (k, v) :: rest => (k, stripPath v) :: stripPathEntries rest

end

/-- Rust `enum Value` of rules/values.rs (referenced by path_value.rs,
whose `TryFrom` impl matches exhaustively on exactly these twelve
variants; the enum declaration itself is not under src/ and the
variant list follows that match and the spec, section 3).  The map is
insertion-ordered and string-keyed. -/
inductive Value where
  | null
  | string (s : String)
  | regex (r : String)
  | bool (b : Bool)
  | int (i : Int)
  | float (f : F64)
  | char (c : Char)
  | list (elements : List Value)
  | map (entries : List (String × Value))
  | rangeInt (r : RangeType Int)
  | rangeFloat (r : RangeType F64)
  | rangeChar (r : RangeType Char)

/-- The keys vector built by the `Value::Map` arm of the `TryFrom`
impl: each map key re-expressed as a string `PathAwareValue` located at
`path/key`, in insertion order. -/
def keysOfMap (entries : List (String × Value)) (path : Path) : List PathAwareValue :=
  entries.map (fun kv => .string (path.extend_string kv.1) kv.1)

mutual

/-- Rust `impl TryFrom<(&Value, Path)> for PathAwareValue` of
path_value.rs.  Every arm of the source returns `Ok` and the recursive
calls are the only error sources, so the conversion never fails and is
embedded as a total function. -/
def fromValue : Value → Path → PathAwareValue
  | .string s, path => .string path s
  | .int num, path => .int path num
  | .float flt, path => .float path flt
  | .regex s, path => .regex path s
  | .char c, path => .char path c
  | .rangeChar r, path => .rangeChar path r
  | .rangeInt r, path => .rangeInt path r
  | .rangeFloat r, path => .rangeFloat path r
  | .bool b, path => .bool path b
  | .null, path => .null path
  | .list v, path => .list path (fromValueList v path 0)
  | .map m, path => .map path (keysOfMap m path) (fromValueEntries m path)

/-- The `Value::List` loop of the `TryFrom` impl: element `idx` is
converted at `path/idx`. -/
def fromValueList : List Value → Path → Nat → List PathAwareValue
  | [], _, _ => []
  | x :: xs, path, idx => fromValue x (path.extend_usize idx) :: fromValueList xs path (idx + 1)

/-- The `Value::Map` value loop of the `TryFrom` impl: the value bound
to `key` is converted at `path/key`, insertion order preserved. -/
def fromValueEntries : List (String × Value) → Path → List (String × PathAwareValue)
  | [], _ => []
  | (k, v) :: rest, path => (k, fromValue v (path.extend_string k)) :: fromValueEntries rest path

end

/-- The keys vector of a map node holds one string `PathAwareValue` per
key, in order, each locating its key at the parent path extended with
that key. -/
def keysMatch (p : Path) : List PathAwareValue → List String → Bool
  | [], [] => true
  | .string q s :: ks, k :: rest => (q == p.extend_str k) && (s == k) && keysMatch p ks rest
  | _, _ => false

mutual

/-- The tree invariant of claim C8, as a decidable predicate on a
`PathAwareValue`: every list element at index `i` carries the path of
its parent extended with `i`, every map value bound to key `k` carries
the path of its parent extended with `k`, both recursively, and the
keys vector of every map node consists of exactly one string node per
key, in insertion order, located at the parent path extended with the
key. -/
def pathsConsistent : PathAwareValue → Bool
  | .list p l => pathsListOk p 0 l
  | .map p keys values => keysMatch p keys (values.map Prod.fst) && pathsMapOk p values
  | _ => true

/-- Children of a list node: element `i` lives at `p/i`. -/
def pathsListOk : Path → Nat → List PathAwareValue → Bool
  | _, _, [] => true
  | p, i, x :: xs =>
    (x.self_path == p.extend_usize i) && pathsConsistent x && pathsListOk p (i + 1) xs

/-- Children of a map node: the value bound to `k` lives at `p/k`. -/
def pathsMapOk : Path → List (String × PathAwareValue) → Bool
  | _, [] => true
  | p, (k, v) :: rest =>
    (v.self_path == p.extend_str k) && pathsConsistent v && pathsMapOk p rest

end

end CfnGuard

namespace GuardCrate

/-- Errors of the guard crate that `resolve_query` of
src/guard/src/rules/exprs/query.rs can produce. -/
inductive GError where
  | retrievalError (msg : String)
  | incompatibleError (msg : String)
deriving Repr, DecidableEq

/-- Dynamic value of the guard crate (rules/values.rs of the guard
crate, not under src/).  Modelled from the spec, section 3: a tagged
sum with scalars, a list, and an insertion-ordered string-keyed map.
The scalar variants beyond these play no role in `resolve_query`, whose
behaviour depends only on the list/map structure, and are elided. -/
inductive GValue where
  | null
  | bool (b : Bool)
  | string (s : String)
  | int (i : Int)
  | list (elements : List GValue)
  | map (entries : List (String × GValue))

/-- Path type of the guard crate (`Path::new(&[...])` with `append`
and `append_str`): a sequence of tokens.  Modelled from the spec,
section 3: a path is constructible by appending a key or an index as
its decimal string. -/
abbrev GPath : Type := List String

/-- Guard crate `Path::append` and `append_str`: push one token. -/
def GPath.append (p : GPath) (tok : String) : GPath := p ++ [tok]

/-- Query part of the guard crate (rules/exprs/mod.rs, not under
src/).  Modelled from the spec, section 3: `Key(name)`, `Index(i32)`,
`AllIndices`, `AllKeys` (the spec writes it `AllValues`/`MapKeys` for
the newer crate; the guard crate query resolver matches `AllKeys`),
`Filter` with its selection criteria, and `VarRef(name)` for variable
dereference.  The criteria carried by `Filter` are never inspected by
`resolve_query` (its arm is unimplemented), so they are elided. -/
inductive GQueryPart where
  | key (name : String)
  | index (i : Int)
  | allKeys
  | allIndices
  | filter (key : String)
  | varRef (name : String)
deriving Repr, DecidableEq

/-- Guard crate `QueryPart::is_variable`.  Modelled from the spec:
true exactly on a variable-dereference part. -/
def GQueryPart.is_variable : GQueryPart → Bool
  | .varRef _ => true
  | _ => false

/-- The ordered path-to-value association produced by a resolved query
(`ResolvedValues`, an insertion-ordered map). -/
abbrev ResolvedValues : Type := List (GPath × GValue)

/-- Outcome of `resolve_query`: a result, an error return, or a panic
through the `unimplemented!()` arm. -/
inductive QOutcome where
  | ok (results : ResolvedValues)
  | error (e : GError)
  | panicked

/-- Guard crate helper `match_list` (rules/exprs/helper.rs, not under
src/).  Modelled from the spec: the value must be a list, anything
else is an incompatibility. -/
def match_list : GValue → Except GError (List GValue)
  | .list xs => .ok xs
  | _ => .error (.incompatibleError "Attempting to access as an array a value that is not an array")

/-- Guard crate helper `match_map` (rules/exprs/helper.rs, not under
src/).  Modelled from the spec: the value must be a map. -/
def match_map : GValue → Except GError (List (String × GValue))
  | .map entries => .ok entries
  | _ => .error (.incompatibleError "Attempting to access as an object/map a value that is not one")

/-- Association-list lookup on a guard crate map. -/
def glookup (key : String) : List (String × GValue) → Option GValue
  | [] => none
  | (k, v) :: rest => if k = key then some v else glookup key rest

/-- Guard crate helper `retrieve_key` (rules/exprs/helper.rs, not
under src/).  Modelled from the spec: a map containing the key yields
its value, a map without it is a retrieval error, anything else is an
incompatibility. -/
def retrieve_key (key : String) : GValue → Except GError GValue
  | .map entries =>
    match glookup key entries with
    | some v => .ok v
    | none => .error (.retrievalError "Could not locate key inside object/map")
  | _ => .error (.incompatibleError "Attempting to retrieve key from a value that is not an object/map")

/-- Guard crate helper `retrieve_index` (rules/exprs/helper.rs, not
under src/).  Modelled from the spec: a list indexed by the absolute
value of the index (the documented sign quirk), out of bounds is a
retrieval error, anything else is an incompatibility. -/
def g_retrieve_index (idx : Int) : GValue → Except GError GValue
  | .list xs =>
    match xs.get? idx.natAbs with
    | some v => .ok v
    | none => .error (.retrievalError "Array Index out of bounds")
  | _ => .error (.incompatibleError "Attempting to retrieve array index from a value that is not an array")

/-- Concatenate the results of a per-element walk, propagating the
first error or panic (the `?` inside `handle_array`/`handle_map`). -/
def qappend (first : QOutcome) (rest : QOutcome) : QOutcome :=
  match first with
  | .ok r =>
    match rest with
    | .ok r2 => .ok (r ++ r2)
    | other => other
  | other => other

/-- The loops of guard crate `QueryResolver::handle_array` and
`handle_map`: walk the remaining query from every element in order
(element `i` of an array at `path/i`, the value bound to `k` in a map
at `path/k`), concatenating the resolutions. -/
def handleEntries (res : GValue → GPath → QOutcome) (path : GPath) :
    List (String × GValue) → QOutcome
  | [] => .ok []
  | (tok, v) :: rest => qappend (res v (path.append tok)) (handleEntries res path rest)

/-- The entries walked by `handle_array`: element `i` paired with its
decimal index token. -/
def indexedEntries (xs : List GValue) : List (String × GValue) :=
  (xs.enum).map (fun iv => (toString iv.1, iv.2))

/-- Rust `QueryResolver::resolve_query` of
src/guard/src/rules/exprs/query.rs.  The imperative loop over the
query parts (with `value_ref`/`path_ref` as loop state and early
returns for the fan-out parts) is embedded as recursion over the query.
Every iteration first rejects variable parts with an incompatibility
error; `Key` parses the key as an `i32` to decide between index and
key retrieval; `AllKeys` fans out over a list or, if the value is not
a list, over a map; `AllIndices` fans out over a list; every other
part (the `Filter` arm of the source is commented out) falls into the
`unimplemented!()` arm and panics.  The `variables: &Scope` and
`eval: &EvalContext` arguments are never used by the body and are
dropped. -/
def resolve_query : List GQueryPart → GValue → GPath → QOutcome
  | [], v, p => .ok [(p, v)]
  | qp :: rest, v, p =>
    if qp.is_variable then
      .error (.incompatibleError "Do not support variable interpolation inside a query")
    else
      match qp with
      | .key k =>
        match CfnGuard.parseI32 k with
        | some idx =>
          match g_retrieve_index idx v with
          | .ok v2 => resolve_query rest v2 (p.append (toString idx))
          | .error e => .error e
        | none =>
          match retrieve_key k v with
          | .ok v2 => resolve_query rest v2 (p.append k)
          | .error e => .error e
      | .index idx =>
        match g_retrieve_index idx v with
        | .ok v2 => resolve_query rest v2 (p.append (toString idx))
        | .error e => .error e
      | .allKeys =>
        match match_list v with
        | .error _ =>
          match match_map v with
          | .ok entries => handleEntries (fun v2 p2 => resolve_query rest v2 p2) p entries
          | .error e => .error e
        | .ok xs => handleEntries (fun v2 p2 => resolve_query rest v2 p2) p (indexedEntries xs)
      | .allIndices =>
        match match_list v with
        | .ok xs => handleEntries (fun v2 p2 => resolve_query rest v2 p2) p (indexedEntries xs)
        | .error e => .error e
      | _ => .panicked
termination_by query _ _ => query.length
decreasing_by all_goals simp +arith

end GuardCrate

namespace CfnGuard

/-! ## Theorems about the spec claims -/

/-- C9: `is_scalar` on `PathAwareValue` is computed as
`!is_list() || !is_map()`, which is a tautology: it returns true for
every value, including list and map values. -/
theorem is_scalar_tautology (v : PathAwareValue) : v.is_scalar = true := by
  cases v <;> rfl

/-- C7 counterexample: the claim states that the ordering comparisons
succeed only on same-typed scalars among string, int, float and char,
but `compare_lt` on two boolean operands succeeds (returning `Ok(false)`
because `compare_values` compares any two booleans as equal), instead
of returning a `NotComparable` error. -/
theorem compare_lt_bool_counterexample :
    compare_lt (PathAwareValue.bool Path.root true) (PathAwareValue.bool Path.root false) =
      .ok false := rfl

/-- The pairs of operands on which `compare_values` succeeds, written
out from the spec side for comparison with the implementation:
same-typed string, int, non-NaN float, and char scalars, and
additionally null/null, bool/bool and regex/regex pairs. -/
def comparableKinds : PathAwareValue → PathAwareValue → Bool
  | .null _, .null _ => true
  | .int _ _, .int _ _ => true
  | .string _ _, .string _ _ => true
  | .float _ f, .float _ s => (F64.partialCmp f s).isSome
  | .char _ _, .char _ _ => true
  | .bool _ _, .bool _ _ => true
  | .regex _ _, .regex _ _ => true
  | _, _ => false

/-- C7 (amended): `compare_lt`, `compare_le`, `compare_gt` and
`compare_ge` are the booleanizations of `compare_values` (less-than,
not-greater-than, greater-than, not-less-than respectively, errors
passed through); `compare_values` succeeds exactly on same-typed
string/int/char scalars, float pairs with neither side NaN, and
null/bool/regex pairs — the latter three compared as `Equal` regardless
of their payloads — and returns a `NotComparable` error on every other
combination (differing types, non-scalar operands, or NaN floats). -/
theorem compare_ops_amended :
    (∀ v w, compare_lt v w = (compare_values v w).map (fun o => o == Ordering.lt)) ∧
    (∀ v w, compare_le v w = (compare_values v w).map (fun o => !(o == Ordering.gt))) ∧
    (∀ v w, compare_gt v w = (compare_values v w).map (fun o => o == Ordering.gt)) ∧
    (∀ v w, compare_ge v w = (compare_values v w).map (fun o => !(o == Ordering.lt))) ∧
    (∀ v w, (compare_values v w).isOk = comparableKinds v w) ∧
    (∀ v w, (compare_values v w).isOk = false →
        compare_values v w = .error (.notComparable "Float values are not comparable") ∨
        compare_values v w = .error (.notComparable "PathAwareValues are not comparable")) ∧
    (∀ p q a b, compare_values (.bool p a) (.bool q b) = .ok .eq) ∧
    (∀ p q r r2, compare_values (.regex p r) (.regex q r2) = .ok .eq) := by
  refine ⟨?_, ?_, ?_, ?_, ?_, ?_, ?_, ?_⟩
  · intro v w
    cases h : compare_values v w with
    | ok o => cases o <;> simp [compare_lt, h, Except.map] <;> decide
    | error e => simp [compare_lt, h, Except.map]
  · intro v w
    cases h : compare_values v w with
    | ok o => cases o <;> simp [compare_le, h, Except.map] <;> decide
    | error e => simp [compare_le, h, Except.map]
  · intro v w
    cases h : compare_values v w with
    | ok o => cases o <;> simp [compare_gt, h, Except.map] <;> decide
    | error e => simp [compare_gt, h, Except.map]
  · intro v w
    cases h : compare_values v w with
    | ok o => cases o <;> simp [compare_ge, h, Except.map] <;> decide
    | error e => simp [compare_ge, h, Except.map]
  · intro v w
    cases v <;> cases w <;>
      simp [compare_values, comparableKinds, Except.isOk, Except.toBool]
    case float.float p f q s =>
      cases h : F64.partialCmp f s <;> simp [h, Except.isOk, Except.toBool]
  · intro v w
    cases v <;> cases w <;>
      simp [compare_values, Except.isOk, Except.toBool]
    case float.float p f q s =>
      cases h : F64.partialCmp f s <;> simp [h, Except.isOk, Except.toBool]
  · intro p q a b; rfl
  · intro p q r r2; rfl

/-- C3 counterexample: at `i = -2^31` (the one `i32` whose negation
overflows) and a list longer than `2^31`, the claim promises element
`|i| = 2^31`, but the code (release-build wrapping semantics) computes
the effective index `2^64 - 2^31` and fails with a `RetrievalError`. -/
theorem retrieve_index_at_min (l : List PathAwareValue) (h : l.length ≤ 2 ^ 64 - 2 ^ 31) :
    retrieve_index (-(2 ^ 31)) l = .error (.retrievalError "Array Index out of bounds") := by
  unfold retrieve_index
  have h1 : ¬ ((0 : Int) ≤ -(2 ^ 31)) := by norm_num
  rw [if_neg h1, if_pos rfl, dif_neg]
  omega

theorem retrieve_index_int32_min_counterexample :
    (Int.natAbs (-(2 ^ 31)) <
        (List.replicate (2 ^ 31 + 1) (PathAwareValue.null Path.root)).length) ∧
    retrieve_index (-(2 ^ 31)) (List.replicate (2 ^ 31 + 1) (PathAwareValue.null Path.root)) =
      .error (.retrievalError "Array Index out of bounds") := by
  constructor
  · rw [List.length_replicate]
    norm_num
  · exact retrieve_index_at_min _ (by rw [List.length_replicate]; norm_num)

/-- C3 (amended): for every `i32` index other than `i32::MIN`, the sign
of the index is ignored: retrieval from a list of length `n` returns
element `|i|` when `|i| < n` and a `RetrievalError` otherwise.  (At
`i = i32::MIN` the negation in the source overflows: a panic in debug
builds, and in release builds an effective index of `2^64 - 2^31`, so
no element is ever returned there.) -/
theorem retrieve_index_abs_semantics (i : Int) (l : List PathAwareValue)
    (hlo : -(2 ^ 31) < i) (hhi : i < 2 ^ 31) :
    retrieve_index i l =
      if h : i.natAbs < l.length then .ok (l.get ⟨i.natAbs, h⟩)
      else .error (.retrievalError "Array Index out of bounds") := by
  unfold retrieve_index
  have hne : i ≠ -(2 ^ 31) := by omega
  rcases le_or_lt 0 i with hpos | hneg
  · have : i.toNat = i.natAbs := by omega
    simp [if_pos hpos, this]
  · have h1 : ¬ (0 ≤ i) := by omega
    have h2 : (-i).toNat = i.natAbs := by omega
    have hne2 : i ≠ -2147483648 := by omega
    simp [if_neg h1, if_neg hne2, h2]

/-- C3 witness: retrieving index `-1` from a two-element list ignores
the sign and returns element `1`. -/
theorem retrieve_index_abs_semantics_witness :
    retrieve_index (-1) [PathAwareValue.null Path.root, PathAwareValue.int Path.root 5] =
      .ok (PathAwareValue.int Path.root 5) := by
  have h := retrieve_index_abs_semantics (-1)
    [PathAwareValue.null Path.root, PathAwareValue.int Path.root 5]
    (by norm_num) (by norm_num)
  simpa using h

/-- C1 counterexample: with `all = true`, selecting `AllIndices` on an
empty list succeeds with the empty result list, so a strict `select`
can return `Ok` with zero values, contrary to the claim. -/
theorem select_strict_empty_counterexample :
    select true [QueryPart.allIndices] (PathAwareValue.list Path.root []) = .ok [] := by
  simp [select, accumulate]

/-- Queries built from `Key` and `Index` parts only (no fan-out
parts). -/
def keyIndexOnly : List QueryPart → Bool
  | [] => true
  | .key _ :: rest => keyIndexOnly rest
  | .index _ :: rest => keyIndexOnly rest
  | _ => false

/-- A value is a map exactly when it destructures as one. -/
theorem is_map_eq_true {v : PathAwareValue} (h : v.is_map = true) :
    ∃ p keys values, v = .map p keys values := by
  cases v <;> simp_all [PathAwareValue.is_map]

/-- A value is a list exactly when it destructures as one. -/
theorem is_list_eq_true {v : PathAwareValue} (h : v.is_list = true) :
    ∃ p l, v = .list p l := by
  cases v <;> simp_all [PathAwareValue.is_list]

/-- Unfolding lemma: the empty query returns the value itself. -/
theorem select_nil (all : Bool) (v : PathAwareValue) : select all [] v = .ok [v] := by
  simp [select]

/-- Unfolding lemma: a `Key` part whose name parses as an `i32` behaves
exactly as the corresponding `Index` part, on every value. -/
theorem select_key_some (all : Bool) (k : String) (n : Int) (rest : List QueryPart)
    (v : PathAwareValue) (hp : parseI32 k = some n) :
    select all (.key k :: rest) v = select all (.index n :: rest) v := by
  cases v <;> simp [select, hp]

/-- Unfolding lemma: an `Index` part on a list retrieves the index and
recurses, propagating retrieval failures. -/
theorem select_index_list (all : Bool) (n : Int) (rest : List QueryPart) (p : Path)
    (l : List PathAwareValue) :
    select all (.index n :: rest) (.list p l) =
      match retrieve_index n l with
      | .ok next => select all rest next
      | .error e => .error e := by
  simp [select]

/-- Unfolding lemma: an `Index` part on a non-list is an
incompatibility error. -/
theorem select_index_not_list (all : Bool) (n : Int) (rest : List QueryPart)
    (v : PathAwareValue) (h : v.is_list = false) :
    select all (.index n :: rest) v =
      .error (.incompatibleError "Attempting to retrieve array index, Type was not an array") := by
  cases v <;> simp_all [select, PathAwareValue.is_list]

/-- Unfolding lemma: a non-numeric `Key` part on a map looks the key up
and recurses, or fails with a retrieval error when the key is
absent. -/
theorem select_key_none_map (all : Bool) (k : String) (rest : List QueryPart) (p : Path)
    (keys : List PathAwareValue) (values : List (String × PathAwareValue))
    (hp : parseI32 k = none) :
    select all (.key k :: rest) (.map p keys values) =
      match lookupKey k values with
      | some next => select all rest next
      | none => .error (.retrievalError "Could not locate key inside object/map") := by
  simp [select, hp]

/-- Unfolding lemma: a non-numeric `Key` part on a non-map (including a
list) is an incompatibility error. -/
theorem select_key_none_not_map (all : Bool) (k : String) (rest : List QueryPart)
    (v : PathAwareValue) (hp : parseI32 k = none) (h : v.is_map = false) :
    select all (.key k :: rest) v =
      .error (.incompatibleError "Attempting to retrieve key/index, Type was not an object/map/array") := by
  cases v <;> simp_all [select, PathAwareValue.is_map]

/-- C1 (amended): a strict `select` either returns an error or a list
of values, and when the query consists only of `Key` and `Index` parts
the successful result is a single value (hence nonempty); an empty
`Ok` result arises only from fan-out parts (`AllIndices`, `AllValues`,
`MapKeys`, `Filter`), for example on an empty list. -/
theorem select_key_index_singleton (q : List QueryPart) (v : PathAwareValue)
    (hq : keyIndexOnly q = true) :
    (∃ e, select true q v = .error e) ∨ (∃ r, select true q v = .ok [r]) := by
  induction q generalizing v with
  | nil => exact Or.inr ⟨v, select_nil true v⟩
  | cons part rest ih =>
    have step : ∀ (n : Int), keyIndexOnly rest = true →
        (∃ e, select true (QueryPart.index n :: rest) v = .error e) ∨
        (∃ r, select true (QueryPart.index n :: rest) v = .ok [r]) := by
      intro n hrest
      rcases hvl : v.is_list with _ | _
      · rw [select_index_not_list true n rest v hvl]
        exact Or.inl ⟨_, rfl⟩
      · obtain ⟨p, l, rfl⟩ := is_list_eq_true hvl
        rw [select_index_list]
        rcases hr : retrieve_index n l with e | next
        · exact Or.inl ⟨e, rfl⟩
        · exact ih next hrest
    cases part with
    | key k =>
      have hrest : keyIndexOnly rest = true := by simpa [keyIndexOnly] using hq
      rcases hp : parseI32 k with _ | n
      · rcases hvm : v.is_map with _ | _
        · rw [select_key_none_not_map true k rest v hp hvm]
          exact Or.inl ⟨_, rfl⟩
        · obtain ⟨p, keys, values, rfl⟩ := is_map_eq_true hvm
          rw [select_key_none_map true k rest p keys values hp]
          rcases hl : lookupKey k values with _ | next
          · exact Or.inl ⟨_, rfl⟩
          · exact ih next hrest
      · rw [select_key_some true k n rest v hp]
        exact step n hrest
    | index n =>
      have hrest : keyIndexOnly rest = true := by simpa [keyIndexOnly] using hq
      exact step n hrest
    | allIndices => simp [keyIndexOnly] at hq
    | allValues => simp [keyIndexOnly] at hq
    | mapKeys => simp [keyIndexOnly] at hq
    | filter c => simp [keyIndexOnly] at hq

/-- C1 witness: a one-part `Key` query on a singleton map resolves to
an error or a single value. -/
theorem select_key_index_singleton_witness :
    (∃ e, select true [QueryPart.key "a"]
        (PathAwareValue.map Path.root [] [("a", PathAwareValue.null Path.root)]) = .error e) ∨
    (∃ r, select true [QueryPart.key "a"]
        (PathAwareValue.map Path.root [] [("a", PathAwareValue.null Path.root)]) = .ok [r]) :=
  select_key_index_singleton [QueryPart.key "a"]
    (PathAwareValue.map Path.root [] [("a", PathAwareValue.null Path.root)]) rfl

/-- C2 counterexample: the claim states that when the current value is
a map that contains key `k` the resolver recurses into the value at
`k`; but for a key that parses as an integer, such as "0", the code
takes the numeric branch first and fails with an incompatibility error
even though the map contains the key "0". -/
theorem select_numeric_key_on_map_counterexample :
    lookupKey "0" [("0", PathAwareValue.null (Path.root.extend_str "0"))] =
      some (PathAwareValue.null (Path.root.extend_str "0")) ∧
    select false [QueryPart.key "0"]
        (PathAwareValue.map Path.root
          [PathAwareValue.string (Path.root.extend_str "0") "0"]
          [("0", PathAwareValue.null (Path.root.extend_str "0"))]) =
      .error (.incompatibleError "Attempting to retrieve array index, Type was not an array") := by
  constructor
  · rfl
  · simp [select, show parseI32 "0" = some 0 from rfl]

/-- C2 (amended): a `Key(k)` query part first tries to parse `k` as a
32-bit integer, sign included.  If the parse succeeds (so also for
negative strings such as "-1"), the part behaves exactly as `Index`,
which requires a list — even a map containing the literal key `k`
fails with an incompatibility error.  Only if the parse fails does the
map behaviour of the claim apply: a map containing `k` is recursed
into, a map without `k` is a retrieval error, and every non-map value
(including a list) is an incompatibility error. -/
theorem select_key_branch_amended :
    (∀ all k n rest v, parseI32 k = some n →
        select all (QueryPart.key k :: rest) v = select all (QueryPart.index n :: rest) v) ∧
    (∀ all n rest v, PathAwareValue.is_list v = false →
        select all (QueryPart.index n :: rest) v =
          .error (.incompatibleError "Attempting to retrieve array index, Type was not an array")) ∧
    (∀ all k rest p keys values next, parseI32 k = none → lookupKey k values = some next →
        select all (QueryPart.key k :: rest) (.map p keys values) = select all rest next) ∧
    (∀ all k rest p keys values, parseI32 k = none → lookupKey k values = none →
        select all (QueryPart.key k :: rest) (.map p keys values) =
          .error (.retrievalError "Could not locate key inside object/map")) ∧
    (∀ all k rest v, parseI32 k = none → PathAwareValue.is_map v = false →
        select all (QueryPart.key k :: rest) v =
          .error (.incompatibleError "Attempting to retrieve key/index, Type was not an object/map/array")) := by
  refine ⟨?_, ?_, ?_, ?_, ?_⟩
  · intro all k n rest v hp
    exact select_key_some all k n rest v hp
  · intro all n rest v hv
    exact select_index_not_list all n rest v hv
  · intro all k rest p keys values next hp hl
    rw [select_key_none_map all k rest p keys values hp, hl]
  · intro all k rest p keys values hp hl
    rw [select_key_none_map all k rest p keys values hp, hl]
  · intro all k rest v hp hv
    exact select_key_none_not_map all k rest v hp hv

/-- C2 witness: the key "a" does not parse as an integer, so on a
singleton map it recurses into the bound value. -/
theorem select_key_branch_amended_witness :
    select false [QueryPart.key "a"]
        (PathAwareValue.map Path.root [] [("a", PathAwareValue.int Path.root 3)]) =
      select false [] (PathAwareValue.int Path.root 3) :=
  select_key_branch_amended.2.2.1 false "a" [] Path.root [] [("a", PathAwareValue.int Path.root 3)]
    (PathAwareValue.int Path.root 3) rfl rfl

/-- C10: the legacy `resolve_query` of the guard crate is not total
over the query language: a variable-reference part is rejected with an
incompatibility error before anything else is looked at, and any
non-variable part other than `Key`, `Index`, `AllKeys` or `AllIndices`
(the `Filter` part) falls into the `unimplemented!()` arm and panics
instead of returning a value or an error. -/
theorem resolve_query_not_total :
    (∀ name qs v p, GuardCrate.resolve_query (.varRef name :: qs) v p =
        .error (.incompatibleError "Do not support variable interpolation inside a query")) ∧
    (∀ crit qs v p, GuardCrate.resolve_query (.filter crit :: qs) v p =
        GuardCrate.QOutcome.panicked) := by
  constructor
  · intro name qs v p
    simp [GuardCrate.resolve_query, GuardCrate.GQueryPart.is_variable]
  · intro crit qs v p
    simp [GuardCrate.resolve_query, GuardCrate.GQueryPart.is_variable]

/-- The head step of the shared element loop: a successful selection
contributes its results. -/
theorem foldSelect_cons_ok (all : Bool) (sel : PathAwareValue → Except Error (List PathAwareValue))
    (x : PathAwareValue) (xs : List PathAwareValue) (res : List PathAwareValue)
    (h : sel x = .ok res) :
    foldSelect all sel (x :: xs) =
      match foldSelect all sel xs with
      | .ok rest => .ok (res ++ rest)
      | .error e => .error e := by
  simp [foldSelect, h]

/-- The head step of the shared element loop on a retrieval error:
swallowed when `all` is false, aborting with the same error when `all`
is true. -/
theorem foldSelect_cons_retrieval (all : Bool)
    (sel : PathAwareValue → Except Error (List PathAwareValue))
    (x : PathAwareValue) (xs : List PathAwareValue) (m : String)
    (h : sel x = .error (.retrievalError m)) :
    foldSelect all sel (x :: xs) =
      if all then .error (.retrievalError m) else foldSelect all sel xs := by
  simp [foldSelect, h]

/-- The head step of the shared element loop on any non-retrieval
error: the error aborts unconditionally. -/
theorem foldSelect_cons_incompatible (all : Bool)
    (sel : PathAwareValue → Except Error (List PathAwareValue))
    (x : PathAwareValue) (xs : List PathAwareValue) (m : String)
    (h : sel x = .error (.incompatibleError m)) :
    foldSelect all sel (x :: xs) = .error (.incompatibleError m) := by
  simp [foldSelect, h]

/-- C4: error disposition inside the fan-out query parts.  For
`AllIndices` on a list (whose element walk, through `accumulate`, runs
the query remainder `qs` that follows the part after `q0`): with
`all = false` an element whose walk ends in a `RetrievalError`
contributes no results and the traversal simply continues with the
remaining elements; with `all = true` the same `RetrievalError` aborts
the whole `select` with that error; an `IncompatibleError` aborts for
either value of `all`.  The same three facts hold for `AllValues` on a
map, whose element walk runs the query remainder `qs` directly. -/
theorem fanout_error_disposition :
    (∀ q0 qs p x xs m, select false qs x = .error (.retrievalError m) →
        select false (QueryPart.allIndices :: q0 :: qs) (.list p (x :: xs)) =
          select false (QueryPart.allIndices :: q0 :: qs) (.list p xs)) ∧
    (∀ q0 qs p x xs m, select true qs x = .error (.retrievalError m) →
        select true (QueryPart.allIndices :: q0 :: qs) (.list p (x :: xs)) =
          .error (.retrievalError m)) ∧
    (∀ all q0 qs p x xs m, select all qs x = .error (.incompatibleError m) →
        select all (QueryPart.allIndices :: q0 :: qs) (.list p (x :: xs)) =
          .error (.incompatibleError m)) ∧
    (∀ qs p keys k x vs m, select false qs x = .error (.retrievalError m) →
        select false (QueryPart.allValues :: qs) (.map p keys ((k, x) :: vs)) =
          select false (QueryPart.allValues :: qs) (.map p keys vs)) ∧
    (∀ qs p keys k x vs m, select true qs x = .error (.retrievalError m) →
        select true (QueryPart.allValues :: qs) (.map p keys ((k, x) :: vs)) =
          .error (.retrievalError m)) ∧
    (∀ all qs p keys k x vs m, select all qs x = .error (.incompatibleError m) →
        select all (QueryPart.allValues :: qs) (.map p keys ((k, x) :: vs)) =
          .error (.incompatibleError m)) := by
  refine ⟨?_, ?_, ?_, ?_, ?_, ?_⟩
  · intro q0 qs p x xs m h
    simp [select, accumulate]
    rw [foldSelect_cons_retrieval false _ x xs m h]
    simp
  · intro q0 qs p x xs m h
    simp [select, accumulate]
    rw [foldSelect_cons_retrieval true _ x xs m h]
    simp
  · intro all q0 qs p x xs m h
    simp [select, accumulate]
    rw [foldSelect_cons_incompatible all _ x xs m h]
  · intro qs p keys k x vs m h
    simp [select]
    rw [foldSelect_cons_retrieval false _ x _ m h]
    simp
  · intro qs p keys k x vs m h
    simp [select]
    rw [foldSelect_cons_retrieval true _ x _ m h]
    simp
  · intro all qs p keys k x vs m h
    simp [select]
    rw [foldSelect_cons_incompatible all _ x _ m h]

/-- C4 witness: walking the key "kk" inside a map element that lacks it
is a retrieval error, so under `all = false` that element of an
`AllIndices` fan-out is skipped and the traversal continues. -/
theorem fanout_error_disposition_witness :
    select false [QueryPart.allIndices, QueryPart.key "skipped", QueryPart.key "kk"]
        (PathAwareValue.list Path.root [PathAwareValue.map Path.root [] []]) =
      select false [QueryPart.allIndices, QueryPart.key "skipped", QueryPart.key "kk"]
        (PathAwareValue.list Path.root []) :=
  fanout_error_disposition.1 (QueryPart.key "skipped") [QueryPart.key "kk"] Path.root
    (PathAwareValue.map Path.root [] []) [] "Could not locate key inside object/map"
    (by simp [select, show parseI32 "kk" = none from rfl, lookupKey])

/-- The query a `Filter` part continues with, per the source: the parts
after the filter, with one immediately following redundant `AllIndices`
skipped. -/
def filterCont : List QueryPart → List QueryPart
  | .allIndices :: restTail => restTail
  | rest => rest

/-- Specification-side combinator: run a selection on each listed
element in order, concatenating the results and propagating the first
error. -/
def concatSelects (sel : PathAwareValue → Except Error (List PathAwareValue)) :
    List PathAwareValue → Except Error (List PathAwareValue)
  | [] => .ok []
  | x :: xs =>
    match sel x with
    | .ok r =>
      match concatSelects sel xs with
      | .ok r2 => .ok (r ++ r2)
      | .error e => .error e
    | .error e => .error e

/-- True exactly when a conjunction evaluation came back PASS. -/
def isPass : Except Error Status → Bool
  | .ok .pass => true
  | _ => false

/-- The filter loop keeps exactly the elements whose conjunction
evaluates to PASS, provided no evaluation errors occur. -/
theorem foldFilter_eq_concatSelects (c : Conjunctions)
    (sel : PathAwareValue → Except Error (List PathAwareValue))
    (l : List PathAwareValue) (h : ∀ x ∈ l, (c x).isOk = true) :
    foldFilter c sel l = concatSelects sel (l.filter (fun x => isPass (c x))) := by
  induction l with
  | nil => simp [foldFilter, concatSelects]
  | cons x xs ih =>
    have hx : (c x).isOk = true := h x (List.mem_cons_self x xs)
    have hxs : ∀ y ∈ xs, (c y).isOk = true := fun y hy => h y (List.mem_cons_of_mem x hy)
    rcases hc : c x with e | st
    · rw [hc] at hx
      simp [Except.isOk, Except.toBool] at hx
    · rw [List.filter_cons]
      cases st with
      | pass =>
        rw [show isPass (c x) = true by rw [hc]; rfl]
        simp only [if_true, concatSelects, foldFilter, hc]
        rw [ih hxs]
      | fail =>
        rw [show isPass (c x) = false by rw [hc]; rfl]
        simp only [Bool.false_eq_true, if_false, foldFilter, hc]
        exact ih hxs
      | skip =>
        rw [show isPass (c x) = false by rw [hc]; rfl]
        simp only [Bool.false_eq_true, if_false, foldFilter, hc]
        exact ih hxs

/-- C5: the `Filter(C)` query part.  On a list, provided the
conjunction evaluates without error on every element, exactly the
elements on which it evaluates to PASS are continued with the remaining
query (with one immediately following redundant `AllIndices` part
skipped, per `filterCont`), elements with any other status are
excluded, and the kept results are concatenated in order.  On a map the
value is treated as a single candidate: kept and continued with the
remaining query exactly when the conjunction evaluates to PASS on it,
and resolved to the empty selection on FAIL or SKIP (an evaluation
error propagates).  On any other value type the part fails with an
incompatibility error. -/
theorem filter_part_characterization :
    (∀ all c rest p l, (∀ x ∈ l, (c x).isOk = true) →
        select all (QueryPart.filter c :: rest) (.list p l) =
          concatSelects (fun x => select all (filterCont rest) x)
            (l.filter (fun x => isPass (c x)))) ∧
    (∀ all c rest p keys values, c (.map p keys values) = .ok .pass →
        select all (QueryPart.filter c :: rest) (.map p keys values) =
          select all rest (.map p keys values)) ∧
    (∀ all c rest p keys values s, s ≠ Status.pass → c (.map p keys values) = .ok s →
        select all (QueryPart.filter c :: rest) (.map p keys values) = .ok []) ∧
    (∀ all c rest p keys values e, c (.map p keys values) = .error e →
        select all (QueryPart.filter c :: rest) (.map p keys values) = .error e) ∧
    (∀ all c rest v, PathAwareValue.is_list v = false → PathAwareValue.is_map v = false →
        select all (QueryPart.filter c :: rest) v =
          .error (.incompatibleError "Attempting to filter, Type was not an array/selected query")) := by
  refine ⟨?_, ?_, ?_, ?_, ?_⟩
  · intro all c rest p l h
    have unfold_step : select all (QueryPart.filter c :: rest) (.list p l) =
        foldFilter c (fun each => select all (filterCont rest) each) l := by
      match rest with
      | QueryPart.allIndices :: restTail => simp only [select, filterCont]
      | [] => simp only [select, filterCont]
      | QueryPart.key k :: restTail => simp only [select, filterCont]
      | QueryPart.index n :: restTail => simp only [select, filterCont]
      | QueryPart.allValues :: restTail => simp only [select, filterCont]
      | QueryPart.mapKeys :: restTail => simp only [select, filterCont]
      | QueryPart.filter c2 :: restTail => simp only [select, filterCont]
    rw [unfold_step]
    exact foldFilter_eq_concatSelects c _ l h
  · intro all c rest p keys values h
    simp [select, h]
  · intro all c rest p keys values s hs h
    cases s with
    | pass => exact absurd rfl hs
    | fail => simp [select, h]
    | skip => simp [select, h]
  · intro all c rest p keys values e h
    simp [select, h]
  · intro all c rest v hl hm
    cases v <;> simp_all [select, PathAwareValue.is_list, PathAwareValue.is_map]

/-- C5 witness: a filter whose conjunction passes on every element
keeps both elements of a two-element list, continuing with the empty
remaining query. -/
theorem filter_part_characterization_witness :
    select true [QueryPart.filter (fun _ => .ok .pass)]
        (PathAwareValue.list Path.root [PathAwareValue.int Path.root 1, PathAwareValue.int Path.root 2]) =
      concatSelects (fun x => select true (filterCont []) x)
        ((List.filter (fun x => isPass ((fun _ => Except.ok Status.pass) x))
          [PathAwareValue.int Path.root 1, PathAwareValue.int Path.root 2])) :=
  filter_part_characterization.1 true (fun _ => .ok .pass) [] Path.root
    [PathAwareValue.int Path.root 1, PathAwareValue.int Path.root 2]
    (by intro x _; rfl)

/-- The scalar comparison never looks at the stored paths. -/
theorem compare_values_strip (v w : PathAwareValue) :
    compare_values (stripPath v) (stripPath w) = compare_values v w := by
  cases v <;> cases w <;> simp [stripPath, compare_values]

/-- Path erasure preserves the length of an entry list. -/
theorem stripPathEntries_length (m : List (String × PathAwareValue)) :
    (stripPathEntries m).length = m.length := by
  induction m with
  | nil => simp [stripPathEntries]
  | cons kv rest ih =>
    match kv with
    | (k, v) => simp [stripPathEntries, ih]

/-- Path erasure commutes with key lookup. -/
theorem lookupKey_stripPathEntries (key : String) (m : List (String × PathAwareValue)) :
    lookupKey key (stripPathEntries m) = Option.map stripPath (lookupKey key m) := by
  induction m with
  | nil => simp [stripPathEntries, lookupKey]
  | cons kv rest ih =>
    match kv with
    | (k, v) =>
      by_cases hk : k = key
      · simp [stripPathEntries, lookupKey, hk]
      · simp [stripPathEntries, lookupKey, hk, ih]

/-- C6 (amended, part 1): `PartialEq` on `PathAwareValue` is
insensitive to the paths stored anywhere in either tree. -/
theorem pvEq_ignores_paths : ∀ (v w : PathAwareValue),
    pvEq (stripPath v) (stripPath w) = pvEq v w := by
  refine pvEq.induct
    (fun v w => pvEq (stripPath v) (stripPath w) = pvEq v w)
    (fun m other => pvMapSub (stripPathEntries m) (stripPathEntries other) = pvMapSub m other)
    (fun l l2 => pvListEq (stripPathList l) (stripPathList l2) = pvListEq l l2)
    ?_ ?_ ?_ ?_ ?_ ?_ ?_ ?_ ?_
  · intro p keys values p2 keys2 values2 h3 h2
    simp only [stripPath, pvEq, stripPathEntries_length, h3, h2]
  · intro p l p2 l2 h3
    simp only [stripPath, pvEq, h3]
  · intro v w hmap hlist heq
    cases v <;> cases w <;>
      first
        | exact (hmap _ _ _ _ _ _ rfl rfl).elim
        | exact (hlist _ _ _ _ rfl rfl).elim
        | simp [pvEq, stripPath, compare_values]
  · intro v w hmap hlist heq
    cases v <;> cases w <;>
      first
        | exact (hmap _ _ _ _ _ _ rfl rfl).elim
        | exact (hlist _ _ _ _ rfl rfl).elim
        | simp [pvEq, stripPath, compare_values]
  · intro other
    simp [pvMapSub, stripPathEntries]
  · intro k v rest other h1 h2
    simp only [stripPathEntries, pvMapSub, lookupKey_stripPathEntries, h2]
    rcases hl : lookupKey k other with _ | w
    · simp
    · simp [h1 w]
  · simp [pvListEq, stripPathList]
  · intro x xs y ys h1 h3
    simp [stripPathList, pvListEq, h1, h3]
  · intro l l2 hnil hcons
    match l, l2 with
    | [], [] => exact (hnil rfl rfl).elim
    | x :: xs, y :: ys => exact (hcons x xs y ys rfl rfl).elim
    | [], y :: ys => simp [stripPathList, pvListEq]
    | x :: xs, [] => simp [stripPathList, pvListEq]

/-- C6 counterexample: the claim states that equality compares scalar
payloads, but two boolean nodes with different payloads (true and
false) compare as equal, because the `Bool` arm of `compare_values`
ignores the payload; the same holds for regex nodes. -/
theorem pvEq_bool_payload_counterexample :
    pvEq (PathAwareValue.bool Path.root true) (PathAwareValue.bool ⟨"x"⟩ false) = true := by
  simp [pvEq, compare_values]

/-- C6 (amended): `PartialEq` on two `PathAwareValue`s ignores the
paths stored anywhere in either tree and compares structure and scalar
payloads through `compare_values` — with the quirk that the payloads of
`Bool` and `Regex` nodes are ignored (any two bools, and any two
regexes, compare equal); float equality goes through the partial order,
so a comparison in which either side is NaN returns false. -/
theorem pvEq_amended :
    (∀ v w, pvEq (stripPath v) (stripPath w) = pvEq v w) ∧
    (∀ p q f, pvEq (.float p .nan) (.float q f) = false) ∧
    (∀ p q f, pvEq (.float p f) (.float q .nan) = false) ∧
    (∀ p q a b, pvEq (.bool p a) (.bool q b) = true) ∧
    (∀ p q r r2, pvEq (.regex p r) (.regex q r2) = true) := by
  refine ⟨pvEq_ignores_paths, ?_, ?_, ?_, ?_⟩
  · intro p q f
    simp [pvEq, compare_values, F64.partialCmp]
  · intro p q f
    cases f <;> simp [pvEq, compare_values, F64.partialCmp]
  · intro p q a b
    simp [pvEq, compare_values]
  · intro p q r r2
    simp [pvEq, compare_values]

/-- Converting map entries preserves the key sequence. -/
theorem fromValueEntries_fst (m : List (String × Value)) (path : Path) :
    (fromValueEntries m path).map Prod.fst = m.map Prod.fst := by
  induction m with
  | nil => simp [fromValueEntries]
  | cons kv rest ih =>
    match kv with
    | (k, v) => simp [fromValueEntries, ih]

/-- The keys vector built for a map matches its key sequence: one
string node per key, in insertion order, at the parent path extended
with the key. -/
theorem keysMatch_keysOfMap (m : List (String × Value)) (path : Path) :
    keysMatch path (keysOfMap m path) (m.map Prod.fst) = true := by
  induction m with
  | nil => simp [keysOfMap, keysMatch]
  | cons kv rest ih =>
    match kv with
    | (k, v) =>
      simp only [keysOfMap, Path.extend_string] at ih
      simp [keysOfMap, keysMatch, Path.extend_string, ih]

/-- C8: every tree built by the `TryFrom` conversion satisfies the path
invariant: the root node carries exactly the path the conversion was
started at (so a tree built at `Path::root()` has the empty string as
its root path), every list element at index `i` carries its parent path
extended with `/` and the decimal index, every map value bound to key
`k` carries its parent path extended with `/` and the key, and every
map node carries one string `PathAwareValue` per key in insertion
order; extending a path appends exactly the separator `/` followed by
the token, and the root path is the empty string. -/
theorem fromValue_tree_invariants :
    (∀ (value : Value) (path : Path),
        (fromValue value path).self_path = path ∧
        pathsConsistent (fromValue value path) = true) ∧
    (∀ p t, (Path.extend_str p t).s = p.s ++ "/" ++ t) ∧
    Path.root.s = "" := by
  refine ⟨?_, fun p t => rfl, rfl⟩
  refine fromValue.induct
    (fun v path => (fromValue v path).self_path = path ∧
      pathsConsistent (fromValue v path) = true)
    (fun m path => pathsMapOk path (fromValueEntries m path) = true)
    (fun xs path idx => pathsListOk path idx (fromValueList xs path idx) = true)
    ?_ ?_ ?_ ?_ ?_ ?_ ?_ ?_ ?_ ?_ ?_ ?_ ?_ ?_ ?_ ?_
  · intro x path
    exact ⟨by simp [fromValue, PathAwareValue.self_path], by simp [fromValue, pathsConsistent]⟩
  · intro x path
    exact ⟨by simp [fromValue, PathAwareValue.self_path], by simp [fromValue, pathsConsistent]⟩
  · intro x path
    exact ⟨by simp [fromValue, PathAwareValue.self_path], by simp [fromValue, pathsConsistent]⟩
  · intro x path
    exact ⟨by simp [fromValue, PathAwareValue.self_path], by simp [fromValue, pathsConsistent]⟩
  · intro x path
    exact ⟨by simp [fromValue, PathAwareValue.self_path], by simp [fromValue, pathsConsistent]⟩
  · intro x path
    exact ⟨by simp [fromValue, PathAwareValue.self_path], by simp [fromValue, pathsConsistent]⟩
  · intro x path
    exact ⟨by simp [fromValue, PathAwareValue.self_path], by simp [fromValue, pathsConsistent]⟩
  · intro x path
    exact ⟨by simp [fromValue, PathAwareValue.self_path], by simp [fromValue, pathsConsistent]⟩
  · intro x path
    exact ⟨by simp [fromValue, PathAwareValue.self_path], by simp [fromValue, pathsConsistent]⟩
  · intro path
    exact ⟨by simp [fromValue, PathAwareValue.self_path], by simp [fromValue, pathsConsistent]⟩
  · intro v path h3
    refine ⟨by simp [fromValue, PathAwareValue.self_path], ?_⟩
    simp [fromValue, pathsConsistent, h3]
  · intro m path h2
    refine ⟨by simp [fromValue, PathAwareValue.self_path], ?_⟩
    simp [fromValue, pathsConsistent, h2, fromValueEntries_fst, keysMatch_keysOfMap]
  · intro path idx
    simp [fromValueList, pathsListOk]
  · intro x xs path idx h1 h3
    simp [fromValueList, pathsListOk, h1.1, h1.2, h3]
  · intro path
    simp [fromValueEntries, pathsMapOk]
  · intro k v rest path h1 h2
    simp only [Path.extend_string] at h1
    simp [fromValueEntries, pathsMapOk, Path.extend_string, h1.1, h1.2, h2]

/-- C7 witness: an int compared against a string is not comparable, and
the failure is one of the two `NotComparable` errors. -/
theorem compare_ops_amended_witness :
    compare_values (PathAwareValue.int Path.root 1) (PathAwareValue.string Path.root "a") =
        .error (.notComparable "Float values are not comparable") ∨
    compare_values (PathAwareValue.int Path.root 1) (PathAwareValue.string Path.root "a") =
        .error (.notComparable "PathAwareValues are not comparable") :=
  compare_ops_amended.2.2.2.2.2.1
    (PathAwareValue.int Path.root 1) (PathAwareValue.string Path.root "a") rfl

end CfnGuard
